import Mathlib

/-!
Verification of the SentinelX uninstaller (`sentinelx_uninstall.py`) and the
reporting helper (`sentinelx/core/reporting.py`).

The filesystem is modelled as an association list from paths (lists of name
components, already absolute: `expanduser`/`resolve` are the identity on this
representation) to entry kinds.  A `World` carries the filesystem together
with the environment facts the script observes: which paths raise on removal
(permission errors), whether the `pip` subprocess can be invoked at all,
whether `pip show sentinelx` reports the package installed, and whether the
`pip uninstall` invocation exits successfully.  Every Python function is a
total Lean function from `World` to `World` paired with the list of console
messages it prints; totality models the source's catch-all exception
handling (no call ever propagates an exception).
-/

namespace SentinelX

/-- A filesystem path, as its list of name components (absolute). -/
abbrev Path := List String

/-- Kind of a filesystem entry.  `link broken` is a symlink; a broken
(dangling) symlink has `Path.exists() = False` but `is_symlink() = True`. -/
inductive EntryKind : Type
  | file : EntryKind
  | dir : EntryKind
  | link : Bool → EntryKind
deriving DecidableEq, Repr

/-- Filesystem state: the entries that currently exist. -/
structure FS : Type where
  entries : List (Path × EntryKind)
deriving DecidableEq, Repr

/-- First-match lookup in an entry list. -/
def lookupList : List (Path × EntryKind) → Path → Option EntryKind
  | [], _ => none
  | e :: l, p => if e.1 = p then some e.2 else lookupList l p

def FS.lookup (fs : FS) (p : Path) : Option EntryKind :=
  lookupList fs.entries p

/-- `Path.exists()`: true for files, directories and non-broken symlinks. -/
def FS.pathExists (fs : FS) (p : Path) : Bool :=
  match fs.lookup p with
  | some (.link true) => false
  | some _ => true
  | none => false

/-- `Path.is_dir()` for a genuine directory entry. -/
def FS.isDir (fs : FS) (p : Path) : Bool :=
  decide (fs.lookup p = some EntryKind.dir)

/-- `Path.is_symlink()`. -/
def FS.isSymlink (fs : FS) (p : Path) : Bool :=
  match fs.lookup p with
  | some (.link _) => true
  | _ => false

/-- Drop the entry whose path is exactly `p`. -/
def removeOne : List (Path × EntryKind) → Path → List (Path × EntryKind)
  | [], _ => []
  | e :: l, p => if e.1 = p then removeOne l p else e :: removeOne l p

/-- Drop every entry at or below `p`. -/
def removeTree : List (Path × EntryKind) → Path → List (Path × EntryKind)
  | [], _ => []
  | e :: l, p => if p <+: e.1 then removeTree l p else e :: removeTree l p

/-- `os.remove(p)`: delete the single entry at `p`. -/
def FS.removeEntry (fs : FS) (p : Path) : FS :=
  ⟨removeOne fs.entries p⟩

/-- `shutil.rmtree(p)`: delete `p` and everything below it. -/
def FS.rmtree (fs : FS) (p : Path) : FS :=
  ⟨removeTree fs.entries p⟩

/-- Full state observed and mutated by the script. -/
structure World : Type where
  /-- the filesystem -/
  fs : FS
  /-- paths whose deletion raises (e.g. permission denied) -/
  failing : List Path
  /-- `subprocess.run([... "pip" ...])` can be invoked (binary present) -/
  pipOk : Bool
  /-- `pip show sentinelx` exits 0 (package installed) -/
  pipInstalled : Bool
  /-- `pip uninstall sentinelx` exits 0 when attempted -/
  pipUninstallOk : Bool
deriving DecidableEq, Repr

/-- Whether `os.remove p` raises: permission failure, or `p` is a real
directory (`IsADirectoryError`). -/
def osRemoveFails (w : World) (p : Path) : Bool :=
  decide (p ∈ w.failing) || w.fs.isDir p

/-- Console messages, one constructor per `console.print` in the source. -/
inductive Msg : Type
  | removedSymlink : Path → Msg
  | failedSymlink : Path → Msg
  | removedOldSymlink : Path → Msg
  | removedDir : Path → Msg
  | failedRemoveDir : Path → Msg
  | detectedPip : Msg
  | pipUninstalled : Msg
  | foundUserConfig : Path → Msg
  | noUserConfig : Msg
  | detectedManualInstall : Path → Msg
  | removedFile : Path → Msg
  | failedRemoveFile : String → Msg
  | localArtifactsRemoved : Msg
  | parentNote : Path → Msg
  | notProjectRoot : Msg
  | banner : Msg
  | dangerWarning : Msg
  | cancelled : Msg
  | starting : Msg
  | complete : Msg
  | completeNote : Msg
deriving DecidableEq, Repr

/-- Home directory (`~`), as resolved by `expanduser`. -/
def homePath : Path := ["home", "user"]

/-- `~/.local/bin/sentinelX`, the canonical launcher symlink. -/
def symlinkPath : Path := homePath ++ [".local", "bin", "sentinelX"]

/-- `~/.local/bin/sentinelx`, the old lowercase symlink. -/
def oldSymlinkPath : Path := homePath ++ [".local", "bin", "sentinelx"]

/-- `~/.sentinelx`, the user configuration directory. -/
def configPath : Path := homePath ++ [".sentinelx"]

/-- `remove_directory(path)`: if the (resolved) path exists and is a
directory, `shutil.rmtree` it, reporting success or the caught failure;
otherwise return `False` with no output. -/
def remove_directory (w : World) (p : Path) : World × List Msg × Bool :=
  if w.fs.pathExists p && w.fs.isDir p then
    if decide (p ∈ w.failing) then
      (w, [Msg.failedRemoveDir p], false)
    else
      ({ w with fs := w.fs.rmtree p }, [Msg.removedDir p], true)
  else
    (w, [], false)

/-- First block of `remove_symlinks`: the canonical `~/.local/bin/sentinelX`
launcher; a caught removal failure is reported. -/
def removeCanonicalSymlink (w : World) : World × List Msg :=
  if w.fs.pathExists symlinkPath || w.fs.isSymlink symlinkPath then
    if osRemoveFails w symlinkPath then
      (w, [Msg.failedSymlink symlinkPath])
    else
      ({ w with fs := w.fs.removeEntry symlinkPath },
       [Msg.removedSymlink symlinkPath])
  else (w, [])

/-- Second block of `remove_symlinks`: the old lowercase symlink; a removal
failure is silently passed (`except Exception as e: pass`). -/
def removeOldSymlink (w : World) : World × List Msg :=
  if w.fs.pathExists oldSymlinkPath || w.fs.isSymlink oldSymlinkPath then
    if osRemoveFails w oldSymlinkPath then
      (w, [])
    else
      ({ w with fs := w.fs.removeEntry oldSymlinkPath },
       [Msg.removedOldSymlink oldSymlinkPath])
  else (w, [])

/-- `remove_symlinks()`: try the canonical launcher symlink, then the old
lowercase one. -/
def remove_symlinks (w : World) : World × List Msg :=
  let step1 := removeCanonicalSymlink w
  let step2 := removeOldSymlink step1.1
  (step2.1, step1.2 ++ step2.2)

/-- The `pip uninstall` command line built by `uninstall_pip_package`:
the `-y` flag is appended exactly when `force` is set. -/
def pipUninstallCmd (force : Bool) : List String :=
  let cmd := ["python3", "-m", "pip", "uninstall", "sentinelx"]
  if force then cmd ++ ["-y"] else cmd

/-- `uninstall_pip_package(force)`: query `pip show sentinelx`; a failing
query or an exception anywhere in the `try` block yields `False` silently.
On detection, run `pip uninstall` (with `-y` iff `force`) and return `True`
on its success; a failing uninstall is caught and yields `False`. -/
def uninstall_pip_package (w : World) (force : Bool) : World × List Msg × Bool :=
  if w.pipOk then
    if w.pipInstalled then
      if w.pipUninstallOk then
        ({ w with pipInstalled := false }, [Msg.detectedPip, Msg.pipUninstalled], true)
      else
        (w, [Msg.detectedPip], false)
    else (w, [], false)
  else (w, [], false)

/-- `remove_user_config()`: report and delete `~/.sentinelx` when present,
else report that there is nothing to do. -/
def remove_user_config (w : World) : World × List Msg :=
  if w.fs.pathExists configPath then
    let r := remove_directory w configPath
    (r.1, Msg.foundUserConfig configPath :: r.2.1)
  else (w, [Msg.noUserConfig])

/-- Marker files whose presence identifies the project root. -/
def markers : List Path := [["setup.py"], ["sentinelx", "config", "tools.yaml"]]

/-- Directories removed from the project root. -/
def dirTargets : List String :=
  ["logs", "reports", "sentinelx", "sentinelx.egg-info", "build", "dist",
   "__pycache__", "assets"]

/-- Top-level files removed from the project root. -/
def fileTargets : List String :=
  ["setup.py", "requirements.txt", "sentinelx_uninstall.py", "README.md",
   "sentinelx.py"]

/-- The uninstaller's own script file, skipped by the file loop. -/
def selfScript : String := "sentinelx_uninstall.py"

/-- `any((cwd / m).exists() for m in markers)`. -/
def is_project_root (w : World) (cwd : Path) : Bool :=
  markers.any (fun m => w.fs.pathExists (cwd ++ m))

/-- One iteration of the `for target in targets` loop: call
`remove_directory` on the target when it exists. -/
def dirTargetStep (w : World) (tp : Path) : World × List Msg :=
  if w.fs.pathExists tp then
    let r := remove_directory w tp
    (r.1, r.2.1)
  else (w, [])

/-- The `for target in targets` loop of `remove_local_artifacts`. -/
def removeDirTargets (w : World) (cwd : Path) : List String → World × List Msg
  | [] => (w, [])
  | t :: ts =>
    let step := dirTargetStep w (cwd ++ [t])
    let rest := removeDirTargets step.1 cwd ts
    (rest.1, step.2 ++ rest.2)

/-- One iteration of the `for file in files` loop: `os.remove` the file when
it exists and is not the uninstaller itself, catching and reporting a
failure. -/
def fileTargetStep (w : World) (f : String) (fp : Path) : World × List Msg :=
  if w.fs.pathExists fp && decide (f ≠ selfScript) then
    if osRemoveFails w fp then
      (w, [Msg.failedRemoveFile f])
    else
      ({ w with fs := w.fs.removeEntry fp }, [Msg.removedFile fp])
  else (w, [])

/-- The `for file in files` loop of `remove_local_artifacts`. -/
def removeFileTargets (w : World) (cwd : Path) : List String → World × List Msg
  | [] => (w, [])
  | f :: rest_files =>
    let step := fileTargetStep w f (cwd ++ [f])
    let rest := removeFileTargets step.1 cwd rest_files
    (rest.1, step.2 ++ rest.2)

/-- `remove_local_artifacts()`: when a marker file makes `cwd` a project
root, remove the target directories then the target files; otherwise print
a skip notice and do nothing. -/
def remove_local_artifacts (w : World) (cwd : Path) : World × List Msg :=
  if is_project_root w cwd then
    let rd := removeDirTargets w cwd dirTargets
    let rf := removeFileTargets rd.1 cwd fileTargets
    (rf.1, Msg.detectedManualInstall cwd ::
      (rd.2 ++ rf.2) ++ [Msg.localArtifactsRemoved, Msg.parentNote cwd])
  else (w, [Msg.notProjectRoot])

/-- The fallback `Confirm.ask` parse: `input(...).lower().startswith("y")`.
Lowercasing is applied character by character, and `startswith` of the
one-character string `"y"` holds exactly when the first character is `y`. -/
def confirmAffirmative (answer : String) : Bool :=
  match answer.data.map Char.toLower with
  | [] => false
  | c :: _ => decide (c = 'y')

/-- The four cleanup steps of `main`, in their fixed order, each invoked
unconditionally with its return value ignored, followed by the completion
banner. -/
def main_steps (w : World) (cwd : Path) (yes : Bool) : World × List Msg :=
  let r1 := uninstall_pip_package w yes
  let r2 := remove_symlinks r1.1
  let r3 := remove_user_config r2.1
  let r4 := remove_local_artifacts r3.1 cwd
  (r4.1, Msg.starting :: (r1.2.1 ++ r2.2 ++ r3.2 ++ r4.2)
    ++ [Msg.complete, Msg.completeNote])

/-- `main()`: banner, confirmation gate (bypassed by `-y`; a
non-affirmative answer prints the cancellation notice and `sys.exit(0)`),
then the four steps.  Result: final world, printed messages, exit status. -/
def main (w : World) (cwd : Path) (yes : Bool) (answer : String) :
    World × List Msg × Nat :=
  if yes then
    let r := main_steps w cwd true
    (r.1, Msg.banner :: r.2, 0)
  else
    if confirmAffirmative answer then
      let r := main_steps w cwd false
      (r.1, Msg.banner :: Msg.dangerWarning :: r.2, 0)
    else
      (w, [Msg.banner, Msg.dangerWarning, Msg.cancelled], 0)

/-! ### Reporting helper (`sentinelx/core/reporting.py`) -/

/-- State touched by the reporting helpers: whether the `reports` directory
exists, the report files written so far (a CSV file is recorded together
with the records it serialises), and the confirmation notices printed. -/
structure ReportState : Type where
  reportsDirExists : Bool
  files : List (String × List (List (String × String)))
  notices : List String
deriving DecidableEq, Repr

/-- `generate_filename(prefix="report")`: `os.makedirs("reports")` when the
directory is absent, then build `reports/{pre}_{timestamp}`.  The timestamp
is passed in explicitly (`datetime.now()` is an input of the model). -/
def generate_filename (s : ReportState) (timestamp : String) (pre : String) :
    ReportState × String :=
  let s1 := if s.reportsDirExists then s else { s with reportsDirExists := true }
  (s1, "reports/" ++ pre ++ "_" ++ timestamp)

/-- `save_report_csv(data_list)`: generate the filename (creating the
reports directory as a side effect), return early on an empty record list,
otherwise write the CSV (header from the first record's keys, then the
rows) and print a confirmation notice. -/
def save_report_csv (s : ReportState) (timestamp : String)
    (data_list : List (List (String × String))) : ReportState :=
  let r := generate_filename s timestamp "report"
  let filename := r.2 ++ ".csv"
  if data_list.isEmpty then r.1
  else
    let s2 := { r.1 with files := r.1.files ++ [(filename, data_list)] }
    { s2 with notices := s2.notices ++ ["CSV Report saved to " ++ filename] }

/-! ### Concrete example states, used for the closed-instance checks -/

/-- A manual checkout at `/proj`: both markers could be checked, `setup.py`
is present, the uninstaller script itself is present, a `logs` directory and
an unrelated directory exist, the canonical launcher symlink is dangling,
the legacy lowercase symlink is intact, the user configuration directory
exists, pip reports the package installed and can uninstall it. -/
def exWorld : World :=
  { fs := ⟨[(["proj", "setup.py"], EntryKind.file),
            (["proj", "sentinelx_uninstall.py"], EntryKind.file),
            (["proj", "logs"], EntryKind.dir),
            (["proj", "unrelated_data"], EntryKind.dir),
            (symlinkPath, EntryKind.link true),
            (oldSymlinkPath, EntryKind.link false),
            (configPath, EntryKind.dir)]⟩,
    failing := [],
    pipOk := true, pipInstalled := true, pipUninstallOk := true }

/-- A directory `/proj` that contains generated-looking directories but no
marker file. -/
def exNoMarker : World :=
  { fs := ⟨[(["proj", "logs"], EntryKind.dir),
            (["proj", "build"], EntryKind.dir),
            (["proj", "dist"], EntryKind.dir),
            (["proj", "__pycache__"], EntryKind.dir)]⟩,
    failing := [],
    pipOk := false, pipInstalled := false, pipUninstallOk := false }

/-- An empty filesystem with nothing installed. -/
def exEmpty : World :=
  { fs := ⟨[]⟩, failing := [],
    pipOk := false, pipInstalled := false, pipUninstallOk := false }

/-- A state in which every present target's removal raises a permission
error and the pip uninstall command fails: every sub-cleaner fails. -/
def exFail : World :=
  { fs := ⟨[(["proj", "setup.py"], EntryKind.file),
            (["proj", "logs"], EntryKind.dir),
            (symlinkPath, EntryKind.link false),
            (configPath, EntryKind.dir)]⟩,
    failing := [["proj", "setup.py"], ["proj", "logs"], symlinkPath,
      configPath],
    pipOk := true, pipInstalled := true, pipUninstallOk := false }

/-! ### Basic filesystem lemmas -/

theorem prefix_self (p : Path) : p <+: p :=
  ⟨[], List.append_nil p⟩

theorem lookupList_removeTree (p q : Path) (l : List (Path × EntryKind)) :
    lookupList (removeTree l p) q =
      if p <+: q then none else lookupList l q := by
  induction l with
  | nil => by_cases hpq : p <+: q <;> simp [removeTree, lookupList, hpq]
  | cons e l ih =>
    by_cases h1 : p <+: e.1 <;> by_cases h2 : e.1 = q <;>
      by_cases h3 : p <+: q <;> simp_all [removeTree, lookupList]

theorem FS.lookup_rmtree (fs : FS) (p q : Path) :
    (fs.rmtree p).lookup q = if p <+: q then none else fs.lookup q := by
  rcases fs with ⟨l⟩
  exact lookupList_removeTree p q l

theorem lookupList_removeOne (p q : Path) (l : List (Path × EntryKind)) :
    lookupList (removeOne l p) q =
      if q = p then none else lookupList l q := by
  induction l with
  | nil => by_cases hqp : q = p <;> simp [removeOne, lookupList, hqp]
  | cons e l ih =>
    by_cases h1 : e.1 = p <;> by_cases h2 : e.1 = q <;>
      by_cases h3 : q = p <;> simp_all [removeOne, lookupList]

theorem FS.lookup_removeEntry (fs : FS) (p q : Path) :
    (fs.removeEntry p).lookup q = if q = p then none else fs.lookup q := by
  rcases fs with ⟨l⟩
  exact lookupList_removeOne p q l

theorem FS.lookup_rmtree_self (fs : FS) (p : Path) :
    (fs.rmtree p).lookup p = none := by
  simp [FS.lookup_rmtree, prefix_self]

theorem FS.lookup_removeEntry_self (fs : FS) (p : Path) :
    (fs.removeEntry p).lookup p = none := by
  simp [FS.lookup_removeEntry]

theorem FS.pathExists_false_of_lookup_none {fs : FS} {p : Path}
    (h : fs.lookup p = none) : fs.pathExists p = false := by
  simp [FS.pathExists, h]

/-- An entry invisible to `exists()` and `is_symlink()` is absent. -/
theorem FS.lookup_none_of_invisible {fs : FS} {p : Path}
    (h : (fs.pathExists p || fs.isSymlink p) = false) : fs.lookup p = none := by
  cases hk : fs.lookup p with
  | none => rfl
  | some k =>
    exfalso
    cases k with
    | file => simp [FS.pathExists, hk] at h
    | dir => simp [FS.pathExists, hk] at h
    | link b => simp [FS.isSymlink, hk] at h

/-- Two facts determined by the lookup result agree when the lookups do. -/
theorem FS.pathExists_congr {fs fs' : FS} {p : Path}
    (h : fs'.lookup p = fs.lookup p) : fs'.pathExists p = fs.pathExists p := by
  simp [FS.pathExists, h]

theorem FS.isDir_congr {fs fs' : FS} {p : Path}
    (h : fs'.lookup p = fs.lookup p) : fs'.isDir p = fs.isDir p := by
  simp [FS.isDir, h]

theorem FS.isSymlink_congr {fs fs' : FS} {p : Path}
    (h : fs'.lookup p = fs.lookup p) : fs'.isSymlink p = fs.isSymlink p := by
  simp [FS.isSymlink, h]

/-! ### The shrink relation: every step only deletes -/

/-- `w'` is reachable from `w` by deletions only: the filesystem only loses
entries (surviving entries keep their kind), the failure set and the pip
environment are unchanged, and the pip package can only go from installed
to absent. -/
def Shrinks (w w' : World) : Prop :=
  (∀ q, w'.fs.lookup q = w.fs.lookup q ∨ w'.fs.lookup q = none) ∧
  w'.failing = w.failing ∧ w'.pipOk = w.pipOk ∧
  w'.pipUninstallOk = w.pipUninstallOk ∧
  (w'.pipInstalled = true → w.pipInstalled = true)

theorem Shrinks.refl (w : World) : Shrinks w w :=
  ⟨fun _ => Or.inl rfl, rfl, rfl, rfl, fun h => h⟩

theorem Shrinks.trans {w1 w2 w3 : World} (h12 : Shrinks w1 w2)
    (h23 : Shrinks w2 w3) : Shrinks w1 w3 := by
  obtain ⟨l12, f12, o12, u12, p12⟩ := h12
  obtain ⟨l23, f23, o23, u23, p23⟩ := h23
  refine ⟨fun q => ?_, f23.trans f12, o23.trans o12, u23.trans u12,
    fun h => p12 (p23 h)⟩
  rcases l23 q with h3 | h3
  · rw [h3]; exact l12 q
  · exact Or.inr h3

theorem Shrinks.lookup_none {w w' : World} {q : Path} (h : Shrinks w w')
    (hq : w.fs.lookup q = none) : w'.fs.lookup q = none := by
  rcases h.1 q with h1 | h1
  · rw [h1, hq]
  · exact h1

theorem Shrinks.lookup_some {w w' : World} {q : Path} {k : EntryKind}
    (h : Shrinks w w') (hq : w'.fs.lookup q = some k) :
    w.fs.lookup q = some k := by
  rcases h.1 q with h1 | h1
  · rw [← h1, hq]
  · rw [hq] at h1; exact absurd h1 (by simp)

theorem shrinks_rmtree (w : World) (p : Path) :
    Shrinks w { w with fs := w.fs.rmtree p } := by
  refine ⟨fun q => ?_, rfl, rfl, rfl, fun h => h⟩
  by_cases hpq : p <+: q
  · exact Or.inr (by simp [FS.lookup_rmtree, hpq])
  · exact Or.inl (by simp [FS.lookup_rmtree, hpq])

theorem shrinks_removeEntry (w : World) (p : Path) :
    Shrinks w { w with fs := w.fs.removeEntry p } := by
  refine ⟨fun q => ?_, rfl, rfl, rfl, fun h => h⟩
  by_cases hqp : q = p
  · exact Or.inr (by simp [FS.lookup_removeEntry, hqp])
  · exact Or.inl (by simp [FS.lookup_removeEntry, hqp])

theorem shrinks_remove_directory (w : World) (p : Path) :
    Shrinks w (remove_directory w p).1 := by
  unfold remove_directory
  split
  · split
    · exact Shrinks.refl w
    · exact shrinks_rmtree w p
  · exact Shrinks.refl w

theorem shrinks_removeCanonicalSymlink (w : World) :
    Shrinks w (removeCanonicalSymlink w).1 := by
  unfold removeCanonicalSymlink
  split
  · split
    · exact Shrinks.refl w
    · exact shrinks_removeEntry w symlinkPath
  · exact Shrinks.refl w

theorem shrinks_removeOldSymlink (w : World) :
    Shrinks w (removeOldSymlink w).1 := by
  unfold removeOldSymlink
  split
  · split
    · exact Shrinks.refl w
    · exact shrinks_removeEntry w oldSymlinkPath
  · exact Shrinks.refl w

theorem shrinks_remove_symlinks (w : World) :
    Shrinks w (remove_symlinks w).1 :=
  (shrinks_removeCanonicalSymlink w).trans
    (shrinks_removeOldSymlink (removeCanonicalSymlink w).1)

theorem shrinks_uninstall_pip_package (w : World) (force : Bool) :
    Shrinks w (uninstall_pip_package w force).1 := by
  unfold uninstall_pip_package
  split
  · split
    · split
      · exact ⟨fun _ => Or.inl rfl, rfl, rfl, rfl, fun h => by simp at h⟩
      · exact Shrinks.refl w
    · exact Shrinks.refl w
  · exact Shrinks.refl w

theorem shrinks_remove_user_config (w : World) :
    Shrinks w (remove_user_config w).1 := by
  unfold remove_user_config
  split
  · exact shrinks_remove_directory w configPath
  · exact Shrinks.refl w

theorem shrinks_dirTargetStep (w : World) (tp : Path) :
    Shrinks w (dirTargetStep w tp).1 := by
  unfold dirTargetStep
  split
  · exact shrinks_remove_directory w tp
  · exact Shrinks.refl w

theorem shrinks_fileTargetStep (w : World) (f : String) (fp : Path) :
    Shrinks w (fileTargetStep w f fp).1 := by
  unfold fileTargetStep
  split
  · split
    · exact Shrinks.refl w
    · exact shrinks_removeEntry w fp
  · exact Shrinks.refl w

theorem shrinks_removeDirTargets (w : World) (cwd : Path) (ts : List String) :
    Shrinks w (removeDirTargets w cwd ts).1 := by
  induction ts generalizing w with
  | nil => exact Shrinks.refl w
  | cons t ts ih =>
    exact (shrinks_dirTargetStep w (cwd ++ [t])).trans
      (ih (dirTargetStep w (cwd ++ [t])).1)

theorem shrinks_removeFileTargets (w : World) (cwd : Path)
    (fl : List String) : Shrinks w (removeFileTargets w cwd fl).1 := by
  induction fl generalizing w with
  | nil => exact Shrinks.refl w
  | cons f fl ih =>
    exact (shrinks_fileTargetStep w f (cwd ++ [f])).trans
      (ih (fileTargetStep w f (cwd ++ [f])).1)

theorem shrinks_remove_local_artifacts (w : World) (cwd : Path) :
    Shrinks w (remove_local_artifacts w cwd).1 := by
  by_cases h : is_project_root w cwd
  · simp only [remove_local_artifacts, h, if_true]
    exact (shrinks_removeDirTargets w cwd dirTargets).trans
      (shrinks_removeFileTargets (removeDirTargets w cwd dirTargets).1 cwd
        fileTargets)
  · simp only [remove_local_artifacts, h, if_false, Bool.false_eq_true]
    exact Shrinks.refl w

theorem shrinks_main_steps (w : World) (cwd : Path) (yes : Bool) :
    Shrinks w (main_steps w cwd yes).1 :=
  ((((shrinks_uninstall_pip_package w yes).trans
    (shrinks_remove_symlinks (uninstall_pip_package w yes).1)).trans
    (shrinks_remove_user_config
      (remove_symlinks (uninstall_pip_package w yes).1).1)).trans
    (shrinks_remove_local_artifacts
      (remove_user_config
        (remove_symlinks (uninstall_pip_package w yes).1).1).1 cwd))

/-! ### Stability: states a step has already acted on are fixed points -/

/-- `remove_directory` can no longer change the entry at `p`. -/
def DirStable (w : World) (p : Path) : Prop :=
  w.fs.pathExists p = true → w.fs.isDir p = true → p ∈ w.failing

/-- The file-loop `os.remove` can no longer change the entry at `p`. -/
def FileStable (w : World) (p : Path) : Prop :=
  w.fs.pathExists p = true → osRemoveFails w p = true

/-- The symlink-block `os.remove` can no longer change the entry at `p`. -/
def SymStable (w : World) (p : Path) : Prop :=
  (w.fs.pathExists p || w.fs.isSymlink p) = true → osRemoveFails w p = true

/-- `uninstall_pip_package` can no longer change the pip state. -/
def PipStable (w : World) : Prop :=
  w.pipOk = true → w.pipInstalled = true → w.pipUninstallOk = false

/-- `remove_local_artifacts` can no longer change the state. -/
def ProjStable (w : World) (cwd : Path) : Prop :=
  is_project_root w cwd = false ∨
  ((∀ t ∈ dirTargets, DirStable w (cwd ++ [t])) ∧
   (∀ f ∈ fileTargets, f ≠ selfScript → FileStable w (cwd ++ [f])))

theorem FS.lookup_of_isDir {fs : FS} {p : Path} (h : fs.isDir p = true) :
    fs.lookup p = some EntryKind.dir :=
  of_decide_eq_true h

theorem FS.lookup_isSome_of_pathExists {fs : FS} {p : Path}
    (h : fs.pathExists p = true) : ∃ k, fs.lookup p = some k := by
  cases hk : fs.lookup p with
  | none => rw [FS.pathExists_false_of_lookup_none hk] at h; cases h
  | some k => exact ⟨k, rfl⟩

theorem FS.lookup_isSome_of_visible {fs : FS} {p : Path}
    (h : (fs.pathExists p || fs.isSymlink p) = true) :
    ∃ k, fs.lookup p = some k := by
  cases hk : fs.lookup p with
  | none =>
    rw [FS.pathExists_false_of_lookup_none hk] at h
    simp [FS.isSymlink, hk] at h
  | some k => exact ⟨k, rfl⟩

theorem FS.isSymlink_false_of_lookup_none {fs : FS} {p : Path}
    (h : fs.lookup p = none) : fs.isSymlink p = false := by
  simp [FS.isSymlink, h]

theorem osRemoveFails_congr {w w' : World} {p : Path}
    (hl : w'.fs.lookup p = w.fs.lookup p) (hf : w'.failing = w.failing) :
    osRemoveFails w' p = osRemoveFails w p := by
  simp [osRemoveFails, hf, FS.isDir_congr hl]

theorem dirStable_of_shrinks {w w' : World} {p : Path} (hs : Shrinks w w')
    (h : DirStable w p) : DirStable w' p := by
  intro hex hdir
  have hk' : w'.fs.lookup p = some EntryKind.dir := FS.lookup_of_isDir hdir
  have hk : w.fs.lookup p = some EntryKind.dir := hs.lookup_some hk'
  have hl : w'.fs.lookup p = w.fs.lookup p := by rw [hk', hk]
  rw [hs.2.1]
  exact h (by rw [← FS.pathExists_congr hl]; exact hex)
    (by rw [← FS.isDir_congr hl]; exact hdir)

theorem fileStable_of_shrinks {w w' : World} {p : Path} (hs : Shrinks w w')
    (h : FileStable w p) : FileStable w' p := by
  intro hex
  obtain ⟨k, hk'⟩ := FS.lookup_isSome_of_pathExists hex
  have hk : w.fs.lookup p = some k := hs.lookup_some hk'
  have hl : w'.fs.lookup p = w.fs.lookup p := by rw [hk', hk]
  rw [osRemoveFails_congr hl hs.2.1]
  exact h (by rw [← FS.pathExists_congr hl]; exact hex)

theorem symStable_of_shrinks {w w' : World} {p : Path} (hs : Shrinks w w')
    (h : SymStable w p) : SymStable w' p := by
  intro hvis
  obtain ⟨k, hk'⟩ := FS.lookup_isSome_of_visible hvis
  have hk : w.fs.lookup p = some k := hs.lookup_some hk'
  have hl : w'.fs.lookup p = w.fs.lookup p := by rw [hk', hk]
  rw [osRemoveFails_congr hl hs.2.1]
  refine h ?_
  rw [← FS.pathExists_congr hl, ← FS.isSymlink_congr hl]
  exact hvis

theorem pipStable_of_shrinks {w w' : World} (hs : Shrinks w w')
    (h : PipStable w) : PipStable w' := by
  intro hok hinst
  rw [hs.2.2.2.1]
  exact h (hs.2.2.1 ▸ hok) (hs.2.2.2.2 hinst)

/-! ### Identity on stable states -/

theorem remove_directory_id_of_stable {w : World} {p : Path}
    (h : DirStable w p) : (remove_directory w p).1 = w := by
  unfold remove_directory
  by_cases hc : (w.fs.pathExists p && w.fs.isDir p) = true
  · rw [if_pos hc]
    rw [Bool.and_eq_true] at hc
    rw [if_pos (decide_eq_true (h hc.1 hc.2))]
  · rw [if_neg hc]

theorem uninstall_pip_id_of_stable {w : World} (h : PipStable w)
    (force : Bool) : (uninstall_pip_package w force).1 = w := by
  unfold uninstall_pip_package
  by_cases h1 : w.pipOk = true
  · by_cases h2 : w.pipInstalled = true
    · rw [if_pos h1, if_pos h2, if_neg (by rw [h h1 h2]; exact Bool.false_ne_true)]
    · rw [if_pos h1, if_neg h2]
  · rw [if_neg h1]

theorem removeCanonicalSymlink_id_of_stable {w : World}
    (h : SymStable w symlinkPath) : (removeCanonicalSymlink w).1 = w := by
  unfold removeCanonicalSymlink
  by_cases hc : (w.fs.pathExists symlinkPath || w.fs.isSymlink symlinkPath) = true
  · rw [if_pos hc, if_pos (h hc)]
  · rw [if_neg hc]

theorem removeOldSymlink_id_of_stable {w : World}
    (h : SymStable w oldSymlinkPath) : (removeOldSymlink w).1 = w := by
  unfold removeOldSymlink
  by_cases hc : (w.fs.pathExists oldSymlinkPath || w.fs.isSymlink oldSymlinkPath) = true
  · rw [if_pos hc, if_pos (h hc)]
  · rw [if_neg hc]

theorem remove_symlinks_id_of_stable {w : World}
    (h1 : SymStable w symlinkPath) (h2 : SymStable w oldSymlinkPath) :
    (remove_symlinks w).1 = w := by
  show (removeOldSymlink (removeCanonicalSymlink w).1).1 = w
  rw [removeCanonicalSymlink_id_of_stable h1, removeOldSymlink_id_of_stable h2]

theorem remove_user_config_id_of_stable {w : World}
    (h : DirStable w configPath) : (remove_user_config w).1 = w := by
  unfold remove_user_config
  by_cases hc : w.fs.pathExists configPath = true
  · rw [if_pos hc]
    show (remove_directory w configPath).1 = w
    exact remove_directory_id_of_stable h
  · rw [if_neg hc]

theorem dirTargetStep_id_of_stable {w : World} {tp : Path}
    (h : DirStable w tp) : (dirTargetStep w tp).1 = w := by
  unfold dirTargetStep
  by_cases hc : w.fs.pathExists tp = true
  · rw [if_pos hc]
    show (remove_directory w tp).1 = w
    exact remove_directory_id_of_stable h
  · rw [if_neg hc]

theorem fileTargetStep_id_of_stable {w : World} {f : String} {fp : Path}
    (h : f ≠ selfScript → FileStable w fp) : (fileTargetStep w f fp).1 = w := by
  unfold fileTargetStep
  by_cases hc : (w.fs.pathExists fp && decide (f ≠ selfScript)) = true
  · rw [if_pos hc]
    rw [Bool.and_eq_true] at hc
    rw [if_pos (h (of_decide_eq_true hc.2) hc.1)]
  · rw [if_neg hc]

theorem removeDirTargets_id_of_stable {w : World} {cwd : Path}
    {ts : List String} (h : ∀ t ∈ ts, DirStable w (cwd ++ [t])) :
    (removeDirTargets w cwd ts).1 = w := by
  induction ts with
  | nil => rfl
  | cons t ts ih =>
    show (removeDirTargets (dirTargetStep w (cwd ++ [t])).1 cwd ts).1 = w
    rw [dirTargetStep_id_of_stable (h t (List.mem_cons_self t ts))]
    exact ih (fun t' ht' => h t' (List.mem_cons_of_mem t ht'))

theorem removeFileTargets_id_of_stable {w : World} {cwd : Path}
    {fl : List String}
    (h : ∀ f ∈ fl, f ≠ selfScript → FileStable w (cwd ++ [f])) :
    (removeFileTargets w cwd fl).1 = w := by
  induction fl with
  | nil => rfl
  | cons f fl ih =>
    show (removeFileTargets (fileTargetStep w f (cwd ++ [f])).1 cwd fl).1 = w
    rw [fileTargetStep_id_of_stable (h f (List.mem_cons_self f fl))]
    exact ih (fun f' hf' => h f' (List.mem_cons_of_mem f hf'))

/-- The skip branch of `remove_local_artifacts`: no marker, no removal. -/
theorem remove_local_artifacts_not_root {w : World} {cwd : Path}
    (h : is_project_root w cwd = false) :
    remove_local_artifacts w cwd = (w, [Msg.notProjectRoot]) := by
  unfold remove_local_artifacts
  rw [h]
  rfl

theorem remove_local_artifacts_id_of_stable {w : World} {cwd : Path}
    (h : ProjStable w cwd) : (remove_local_artifacts w cwd).1 = w := by
  rcases h with h | ⟨hd, hf⟩
  · rw [remove_local_artifacts_not_root h]
  · by_cases hr : is_project_root w cwd
    · simp only [remove_local_artifacts, hr, if_true]
      show (removeFileTargets (removeDirTargets w cwd dirTargets).1 cwd
        fileTargets).1 = w
      rw [removeDirTargets_id_of_stable hd]
      exact removeFileTargets_id_of_stable hf
    · have hfalse : is_project_root w cwd = false := by
        cases hb : is_project_root w cwd
        · rfl
        · exact absurd hb hr
      rw [remove_local_artifacts_not_root hfalse]

/-! ### Each step establishes its own stability -/

theorem dirStable_remove_directory_self (w : World) (p : Path) :
    DirStable (remove_directory w p).1 p := by
  unfold remove_directory
  by_cases hc : (w.fs.pathExists p && w.fs.isDir p) = true
  · rw [if_pos hc]
    by_cases hm : decide (p ∈ w.failing) = true
    · rw [if_pos hm]
      intro _ _
      exact of_decide_eq_true hm
    · rw [if_neg hm]
      intro hex _
      exfalso
      have hnone : ({ w with fs := w.fs.rmtree p } : World).fs.lookup p = none :=
        FS.lookup_rmtree_self w.fs p
      rw [FS.pathExists_false_of_lookup_none hnone] at hex
      cases hex
  · rw [if_neg hc]
    intro hex hdir
    exfalso
    rw [Bool.and_eq_true] at hc
    exact hc ⟨hex, hdir⟩

theorem pipStable_uninstall_pip_package (w : World) (force : Bool) :
    PipStable (uninstall_pip_package w force).1 := by
  unfold uninstall_pip_package
  by_cases h1 : w.pipOk = true
  · by_cases h2 : w.pipInstalled = true
    · by_cases h3 : w.pipUninstallOk = true
      · rw [if_pos h1, if_pos h2, if_pos h3]
        intro _ hinst
        cases hinst
      · rw [if_pos h1, if_pos h2, if_neg h3]
        intro _ _
        cases hb : w.pipUninstallOk
        · rfl
        · exact absurd hb h3
    · rw [if_pos h1, if_neg h2]
      intro _ hinst
      exact absurd hinst h2
  · rw [if_neg h1]
    intro hok _
    exact absurd hok h1

theorem symStable_removeCanonicalSymlink (w : World) :
    SymStable (removeCanonicalSymlink w).1 symlinkPath := by
  unfold removeCanonicalSymlink
  by_cases hc : (w.fs.pathExists symlinkPath || w.fs.isSymlink symlinkPath) = true
  · rw [if_pos hc]
    by_cases hf : osRemoveFails w symlinkPath = true
    · rw [if_pos hf]
      intro _
      exact hf
    · rw [if_neg hf]
      intro hvis
      exfalso
      have hnone : ({ w with fs := w.fs.removeEntry symlinkPath } : World).fs.lookup
          symlinkPath = none := FS.lookup_removeEntry_self w.fs symlinkPath
      rw [FS.pathExists_false_of_lookup_none hnone,
        FS.isSymlink_false_of_lookup_none hnone] at hvis
      cases hvis
  · rw [if_neg hc]
    intro hvis
    exact absurd hvis hc

theorem symStable_removeOldSymlink (w : World) :
    SymStable (removeOldSymlink w).1 oldSymlinkPath := by
  unfold removeOldSymlink
  by_cases hc : (w.fs.pathExists oldSymlinkPath || w.fs.isSymlink oldSymlinkPath) = true
  · rw [if_pos hc]
    by_cases hf : osRemoveFails w oldSymlinkPath = true
    · rw [if_pos hf]
      intro _
      exact hf
    · rw [if_neg hf]
      intro hvis
      exfalso
      have hnone : ({ w with fs := w.fs.removeEntry oldSymlinkPath } : World).fs.lookup
          oldSymlinkPath = none := FS.lookup_removeEntry_self w.fs oldSymlinkPath
      rw [FS.pathExists_false_of_lookup_none hnone,
        FS.isSymlink_false_of_lookup_none hnone] at hvis
      cases hvis
  · rw [if_neg hc]
    intro hvis
    exact absurd hvis hc

theorem symStable_remove_symlinks_canonical (w : World) :
    SymStable (remove_symlinks w).1 symlinkPath := by
  show SymStable (removeOldSymlink (removeCanonicalSymlink w).1).1 symlinkPath
  exact symStable_of_shrinks
    (shrinks_removeOldSymlink (removeCanonicalSymlink w).1)
    (symStable_removeCanonicalSymlink w)

theorem symStable_remove_symlinks_old (w : World) :
    SymStable (remove_symlinks w).1 oldSymlinkPath := by
  show SymStable (removeOldSymlink (removeCanonicalSymlink w).1).1 oldSymlinkPath
  exact symStable_removeOldSymlink (removeCanonicalSymlink w).1

theorem dirStable_remove_user_config (w : World) :
    DirStable (remove_user_config w).1 configPath := by
  unfold remove_user_config
  by_cases hc : w.fs.pathExists configPath = true
  · rw [if_pos hc]
    show DirStable (remove_directory w configPath).1 configPath
    exact dirStable_remove_directory_self w configPath
  · rw [if_neg hc]
    intro hex _
    exact absurd hex hc

theorem dirStable_dirTargetStep (w : World) (tp : Path) :
    DirStable (dirTargetStep w tp).1 tp := by
  unfold dirTargetStep
  by_cases hc : w.fs.pathExists tp = true
  · rw [if_pos hc]
    show DirStable (remove_directory w tp).1 tp
    exact dirStable_remove_directory_self w tp
  · rw [if_neg hc]
    intro hex _
    exact absurd hex hc

theorem fileStable_fileTargetStep (w : World) (f : String) (fp : Path)
    (hself : f ≠ selfScript) : FileStable (fileTargetStep w f fp).1 fp := by
  unfold fileTargetStep
  by_cases hc : (w.fs.pathExists fp && decide (f ≠ selfScript)) = true
  · rw [if_pos hc]
    by_cases hf : osRemoveFails w fp = true
    · rw [if_pos hf]
      intro _
      exact hf
    · rw [if_neg hf]
      intro hex
      exfalso
      have hnone : ({ w with fs := w.fs.removeEntry fp } : World).fs.lookup fp =
        none := FS.lookup_removeEntry_self w.fs fp
      rw [FS.pathExists_false_of_lookup_none hnone] at hex
      cases hex
  · rw [if_neg hc]
    intro hex
    exfalso
    apply hc
    rw [Bool.and_eq_true]
    exact ⟨hex, decide_eq_true hself⟩

theorem removeDirTargets_establishes (w : World) (cwd : Path)
    (ts : List String) :
    ∀ t ∈ ts, DirStable (removeDirTargets w cwd ts).1 (cwd ++ [t]) := by
  induction ts generalizing w with
  | nil =>
    intro t ht
    cases ht
  | cons t0 ts ih =>
    intro t ht
    rcases List.mem_cons.mp ht with rfl | ht'
    · show DirStable (removeDirTargets (dirTargetStep w (cwd ++ [t])).1 cwd
        ts).1 (cwd ++ [t])
      exact dirStable_of_shrinks
        (shrinks_removeDirTargets (dirTargetStep w (cwd ++ [t])).1 cwd ts)
        (dirStable_dirTargetStep w (cwd ++ [t]))
    · show DirStable (removeDirTargets (dirTargetStep w (cwd ++ [t0])).1 cwd
        ts).1 (cwd ++ [t])
      exact ih (dirTargetStep w (cwd ++ [t0])).1 t ht'

theorem removeFileTargets_establishes (w : World) (cwd : Path)
    (fl : List String) :
    ∀ f ∈ fl, f ≠ selfScript →
      FileStable (removeFileTargets w cwd fl).1 (cwd ++ [f]) := by
  induction fl generalizing w with
  | nil =>
    intro f hf
    cases hf
  | cons f0 fl ih =>
    intro f hf hself
    rcases List.mem_cons.mp hf with rfl | hf'
    · show FileStable (removeFileTargets (fileTargetStep w f (cwd ++ [f])).1
        cwd fl).1 (cwd ++ [f])
      exact fileStable_of_shrinks
        (shrinks_removeFileTargets (fileTargetStep w f (cwd ++ [f])).1 cwd fl)
        (fileStable_fileTargetStep w f (cwd ++ [f]) hself)
    · show FileStable (removeFileTargets (fileTargetStep w f0 (cwd ++ [f0])).1
        cwd fl).1 (cwd ++ [f])
      exact ih (fileTargetStep w f0 (cwd ++ [f0])).1 f hf' hself

theorem projStable_remove_local_artifacts (w : World) (cwd : Path) :
    ProjStable (remove_local_artifacts w cwd).1 cwd := by
  by_cases hr : is_project_root w cwd
  · right
    simp only [remove_local_artifacts, hr, if_true]
    constructor
    · intro t ht
      show DirStable (removeFileTargets (removeDirTargets w cwd dirTargets).1
        cwd fileTargets).1 (cwd ++ [t])
      exact dirStable_of_shrinks
        (shrinks_removeFileTargets (removeDirTargets w cwd dirTargets).1 cwd
          fileTargets)
        (removeDirTargets_establishes w cwd dirTargets t ht)
    · intro f hf hself
      show FileStable (removeFileTargets (removeDirTargets w cwd dirTargets).1
        cwd fileTargets).1 (cwd ++ [f])
      exact removeFileTargets_establishes
        (removeDirTargets w cwd dirTargets).1 cwd fileTargets f hf hself
  · left
    have hfalse : is_project_root w cwd = false := by
      cases hb : is_project_root w cwd
      · rfl
      · exact absurd hb hr
    rw [remove_local_artifacts_not_root hfalse]
    exact hfalse

/-! ### The whole sequence is idempotent on the state -/

/-- The state component of `main_steps` is the composition of the four
steps' state components. -/
theorem main_steps_fst (w : World) (cwd : Path) (yes : Bool) :
    (main_steps w cwd yes).1 =
    (remove_local_artifacts (remove_user_config (remove_symlinks
      (uninstall_pip_package w yes).1).1).1 cwd).1 := by
  simp only [main_steps]

/-- The second run of the step sequence applied to any state of the shape
produced by a first run is the identity on the state. -/
theorem main_steps_id_on_result (w1 : World) (cwd : Path) (yes : Bool)
    (hPipw1 : PipStable w1) :
    (main_steps
      (remove_local_artifacts (remove_user_config (remove_symlinks w1).1).1
        cwd).1 cwd yes).1 =
    (remove_local_artifacts (remove_user_config (remove_symlinks w1).1).1
      cwd).1 := by
  have hPip : PipStable
      (remove_local_artifacts (remove_user_config (remove_symlinks w1).1).1
        cwd).1 :=
    pipStable_of_shrinks
      (((shrinks_remove_symlinks w1).trans
        (shrinks_remove_user_config (remove_symlinks w1).1)).trans
        (shrinks_remove_local_artifacts
          (remove_user_config (remove_symlinks w1).1).1 cwd)) hPipw1
  have hSymC : SymStable
      (remove_local_artifacts (remove_user_config (remove_symlinks w1).1).1
        cwd).1 symlinkPath :=
    symStable_of_shrinks
      ((shrinks_remove_user_config (remove_symlinks w1).1).trans
        (shrinks_remove_local_artifacts
          (remove_user_config (remove_symlinks w1).1).1 cwd))
      (symStable_remove_symlinks_canonical w1)
  have hSymO : SymStable
      (remove_local_artifacts (remove_user_config (remove_symlinks w1).1).1
        cwd).1 oldSymlinkPath :=
    symStable_of_shrinks
      ((shrinks_remove_user_config (remove_symlinks w1).1).trans
        (shrinks_remove_local_artifacts
          (remove_user_config (remove_symlinks w1).1).1 cwd))
      (symStable_remove_symlinks_old w1)
  have hCfg : DirStable
      (remove_local_artifacts (remove_user_config (remove_symlinks w1).1).1
        cwd).1 configPath :=
    dirStable_of_shrinks
      (shrinks_remove_local_artifacts
        (remove_user_config (remove_symlinks w1).1).1 cwd)
      (dirStable_remove_user_config (remove_symlinks w1).1)
  have hProj : ProjStable
      (remove_local_artifacts (remove_user_config (remove_symlinks w1).1).1
        cwd).1 cwd :=
    projStable_remove_local_artifacts
      (remove_user_config (remove_symlinks w1).1).1 cwd
  rw [main_steps_fst]
  rw [uninstall_pip_id_of_stable hPip yes,
    remove_symlinks_id_of_stable hSymC hSymO,
    remove_user_config_id_of_stable hCfg,
    remove_local_artifacts_id_of_stable hProj]

theorem main_steps_fixed (w : World) (cwd : Path) (yes : Bool) :
    (main_steps (main_steps w cwd yes).1 cwd yes).1 = (main_steps w cwd yes).1 := by
  rw [main_steps_fst w cwd yes]
  exact main_steps_id_on_result (uninstall_pip_package w yes).1 cwd yes
    (pipStable_uninstall_pip_package w yes)

/-! ### Frame lemmas: what the project cleaner cannot touch -/

theorem append_singleton_inj {cwd : Path} {a b : String}
    (h : (cwd ++ [a] : Path) <+: cwd ++ [b]) : a = b := by
  obtain ⟨r, hr⟩ := h
  rw [List.append_assoc] at hr
  have h2 : ([a] ++ r : List String) = [b] := List.append_cancel_left hr
  cases r with
  | nil => simpa using h2
  | cons x xs => simp at h2

theorem append_singleton_eq {cwd : Path} {a b : String}
    (h : (cwd ++ [a] : Path) = cwd ++ [b]) : a = b := by
  have h2 : ([a] : List String) = [b] := List.append_cancel_left h
  simpa using h2

theorem remove_directory_frame {w : World} {p q : Path} (h : ¬ p <+: q) :
    (remove_directory w p).1.fs.lookup q = w.fs.lookup q := by
  unfold remove_directory
  by_cases hc : (w.fs.pathExists p && w.fs.isDir p) = true
  · rw [if_pos hc]
    by_cases hm : decide (p ∈ w.failing) = true
    · rw [if_pos hm]
    · rw [if_neg hm]
      show (w.fs.rmtree p).lookup q = w.fs.lookup q
      rw [FS.lookup_rmtree, if_neg h]
  · rw [if_neg hc]

theorem dirTargetStep_frame {w : World} {tp q : Path} (h : ¬ tp <+: q) :
    (dirTargetStep w tp).1.fs.lookup q = w.fs.lookup q := by
  unfold dirTargetStep
  by_cases hc : w.fs.pathExists tp = true
  · rw [if_pos hc]
    show (remove_directory w tp).1.fs.lookup q = w.fs.lookup q
    exact remove_directory_frame h
  · rw [if_neg hc]

theorem removeDirTargets_frame {cwd q : Path} {ts : List String}
    (h : ∀ t ∈ ts, ¬ (cwd ++ [t] : Path) <+: q) :
    ∀ w : World, (removeDirTargets w cwd ts).1.fs.lookup q = w.fs.lookup q := by
  induction ts with
  | nil => intro w; rfl
  | cons t ts ih =>
    intro w
    show (removeDirTargets (dirTargetStep w (cwd ++ [t])).1 cwd
      ts).1.fs.lookup q = w.fs.lookup q
    rw [ih (fun t' ht' => h t' (List.mem_cons_of_mem t ht'))]
    exact dirTargetStep_frame (h t (List.mem_cons_self t ts))

theorem fileTargetStep_frame {w : World} {f : String} {fp q : Path}
    (h : f ≠ selfScript → q ≠ fp) :
    (fileTargetStep w f fp).1.fs.lookup q = w.fs.lookup q := by
  unfold fileTargetStep
  by_cases hc : (w.fs.pathExists fp && decide (f ≠ selfScript)) = true
  · rw [if_pos hc]
    rw [Bool.and_eq_true] at hc
    have hself : f ≠ selfScript := of_decide_eq_true hc.2
    by_cases hfail : osRemoveFails w fp = true
    · rw [if_pos hfail]
    · rw [if_neg hfail]
      show (w.fs.removeEntry fp).lookup q = w.fs.lookup q
      rw [FS.lookup_removeEntry, if_neg (h hself)]
  · rw [if_neg hc]

theorem removeFileTargets_frame {cwd q : Path} {fl : List String}
    (h : ∀ f ∈ fl, f ≠ selfScript → q ≠ cwd ++ [f]) :
    ∀ w : World, (removeFileTargets w cwd fl).1.fs.lookup q = w.fs.lookup q := by
  induction fl with
  | nil => intro w; rfl
  | cons f fl ih =>
    intro w
    show (removeFileTargets (fileTargetStep w f (cwd ++ [f])).1 cwd
      fl).1.fs.lookup q = w.fs.lookup q
    rw [ih (fun f' hf' => h f' (List.mem_cons_of_mem f hf'))]
    exact fileTargetStep_frame (h f (List.mem_cons_self f fl))

theorem remove_local_artifacts_frame {w : World} {cwd q : Path}
    (hd : ∀ t ∈ dirTargets, ¬ (cwd ++ [t] : Path) <+: q)
    (hf : ∀ f ∈ fileTargets, f ≠ selfScript → q ≠ cwd ++ [f]) :
    (remove_local_artifacts w cwd).1.fs.lookup q = w.fs.lookup q := by
  by_cases hr : is_project_root w cwd
  · simp only [remove_local_artifacts, hr, if_true]
    show (removeFileTargets (removeDirTargets w cwd dirTargets).1 cwd
      fileTargets).1.fs.lookup q = w.fs.lookup q
    rw [removeFileTargets_frame hf, removeDirTargets_frame hd]
  · have hfalse : is_project_root w cwd = false := by
      cases hb : is_project_root w cwd
      · rfl
      · exact absurd hb hr
    rw [remove_local_artifacts_not_root hfalse]

/-! ### The project cleaner does remove its existing targets -/

theorem dirTargets_nodup : dirTargets.Nodup := by decide

theorem fileTargets_nodup : fileTargets.Nodup := by decide

theorem dirTargets_ne_selfScript : ∀ t ∈ dirTargets, t ≠ selfScript := by
  decide

theorem fileTargets_disjoint_dirTargets :
    ∀ f ∈ fileTargets, ∀ t ∈ dirTargets, t ≠ f := by decide

theorem pathExists_of_lookup_dir {fs : FS} {p : Path}
    (h : fs.lookup p = some EntryKind.dir) : fs.pathExists p = true := by
  simp [FS.pathExists, h]

theorem pathExists_of_lookup_file {fs : FS} {p : Path}
    (h : fs.lookup p = some EntryKind.file) : fs.pathExists p = true := by
  simp [FS.pathExists, h]

theorem removeDirTargets_removes (t : String) (cwd : Path)
    (ts : List String) :
    ∀ w : World, ts.Nodup → t ∈ ts →
      w.fs.lookup (cwd ++ [t]) = some EntryKind.dir →
      cwd ++ [t] ∉ w.failing →
      (removeDirTargets w cwd ts).1.fs.lookup (cwd ++ [t]) = none ∧
      Msg.removedDir (cwd ++ [t]) ∈ (removeDirTargets w cwd ts).2 := by
  induction ts with
  | nil =>
    intro w _ ht
    cases ht
  | cons t0 ts ih =>
    intro w hnd ht hdir hfail
    rcases List.mem_cons.mp ht with rfl | ht'
    · have hstep : dirTargetStep w (cwd ++ [t]) =
          ({ w with fs := w.fs.rmtree (cwd ++ [t]) },
           [Msg.removedDir (cwd ++ [t])]) := by
        unfold dirTargetStep remove_directory
        rw [if_pos (pathExists_of_lookup_dir hdir)]
        rw [if_pos (by rw [Bool.and_eq_true]
                       exact ⟨pathExists_of_lookup_dir hdir,
                         decide_eq_true hdir⟩)]
        rw [if_neg (by simp [hfail])]
      constructor
      · show (removeDirTargets (dirTargetStep w (cwd ++ [t])).1 cwd
          ts).1.fs.lookup (cwd ++ [t]) = none
        apply Shrinks.lookup_none
          (shrinks_removeDirTargets (dirTargetStep w (cwd ++ [t])).1 cwd ts)
        rw [hstep]
        exact FS.lookup_rmtree_self w.fs (cwd ++ [t])
      · show Msg.removedDir (cwd ++ [t]) ∈
          (dirTargetStep w (cwd ++ [t])).2 ++
            (removeDirTargets (dirTargetStep w (cwd ++ [t])).1 cwd ts).2
        apply List.mem_append_left
        rw [hstep]
        exact List.mem_cons_self _ _
    · have ht0 : t ≠ t0 := fun hEq =>
        (List.nodup_cons.mp hnd).1 (hEq ▸ ht')
      have hpre : ¬ (cwd ++ [t0] : Path) <+: cwd ++ [t] := fun hp =>
        ht0 (append_singleton_inj hp).symm
      have hlook : (dirTargetStep w (cwd ++ [t0])).1.fs.lookup (cwd ++ [t]) =
          w.fs.lookup (cwd ++ [t]) := dirTargetStep_frame hpre
      have hfail' : cwd ++ [t] ∉ (dirTargetStep w (cwd ++ [t0])).1.failing := by
        rw [(shrinks_dirTargetStep w (cwd ++ [t0])).2.1]
        exact hfail
      have hres := ih (dirTargetStep w (cwd ++ [t0])).1
        (List.nodup_cons.mp hnd).2 ht' (by rw [hlook]; exact hdir) hfail'
      constructor
      · show (removeDirTargets (dirTargetStep w (cwd ++ [t0])).1 cwd
          ts).1.fs.lookup (cwd ++ [t]) = none
        exact hres.1
      · show Msg.removedDir (cwd ++ [t]) ∈
          (dirTargetStep w (cwd ++ [t0])).2 ++
            (removeDirTargets (dirTargetStep w (cwd ++ [t0])).1 cwd ts).2
        exact List.mem_append_right _ hres.2

theorem removeFileTargets_removes (f : String) (cwd : Path)
    (fl : List String) :
    ∀ w : World, fl.Nodup → f ∈ fl → f ≠ selfScript →
      w.fs.lookup (cwd ++ [f]) = some EntryKind.file →
      cwd ++ [f] ∉ w.failing →
      (removeFileTargets w cwd fl).1.fs.lookup (cwd ++ [f]) = none ∧
      Msg.removedFile (cwd ++ [f]) ∈ (removeFileTargets w cwd fl).2 := by
  induction fl with
  | nil =>
    intro w _ hf
    cases hf
  | cons f0 fl ih =>
    intro w hnd hf hself hfile hfail
    rcases List.mem_cons.mp hf with rfl | hf'
    · have hstep : fileTargetStep w f (cwd ++ [f]) =
          ({ w with fs := w.fs.removeEntry (cwd ++ [f]) },
           [Msg.removedFile (cwd ++ [f])]) := by
        unfold fileTargetStep
        rw [if_pos (by rw [Bool.and_eq_true]
                       exact ⟨pathExists_of_lookup_file hfile,
                         decide_eq_true hself⟩)]
        rw [if_neg (by simp [osRemoveFails, hfail, FS.isDir, hfile])]
      constructor
      · show (removeFileTargets (fileTargetStep w f (cwd ++ [f])).1 cwd
          fl).1.fs.lookup (cwd ++ [f]) = none
        apply Shrinks.lookup_none
          (shrinks_removeFileTargets (fileTargetStep w f (cwd ++ [f])).1 cwd fl)
        rw [hstep]
        exact FS.lookup_removeEntry_self w.fs (cwd ++ [f])
      · show Msg.removedFile (cwd ++ [f]) ∈
          (fileTargetStep w f (cwd ++ [f])).2 ++
            (removeFileTargets (fileTargetStep w f (cwd ++ [f])).1 cwd fl).2
        apply List.mem_append_left
        rw [hstep]
        exact List.mem_cons_self _ _
    · have hf0 : f ≠ f0 := fun hEq =>
        (List.nodup_cons.mp hnd).1 (hEq ▸ hf')
      have hne : (cwd ++ [f] : Path) ≠ cwd ++ [f0] := fun hEq =>
        hf0 (append_singleton_eq hEq)
      have hlook : (fileTargetStep w f0 (cwd ++ [f0])).1.fs.lookup
          (cwd ++ [f]) = w.fs.lookup (cwd ++ [f]) :=
        fileTargetStep_frame (fun _ => hne)
      have hfail' : cwd ++ [f] ∉ (fileTargetStep w f0 (cwd ++ [f0])).1.failing := by
        rw [(shrinks_fileTargetStep w f0 (cwd ++ [f0])).2.1]
        exact hfail
      have hres := ih (fileTargetStep w f0 (cwd ++ [f0])).1
        (List.nodup_cons.mp hnd).2 hf' hself (by rw [hlook]; exact hfile) hfail'
      constructor
      · show (removeFileTargets (fileTargetStep w f0 (cwd ++ [f0])).1 cwd
          fl).1.fs.lookup (cwd ++ [f]) = none
        exact hres.1
      · show Msg.removedFile (cwd ++ [f]) ∈
          (fileTargetStep w f0 (cwd ++ [f0])).2 ++
            (removeFileTargets (fileTargetStep w f0 (cwd ++ [f0])).1 cwd fl).2
        exact List.mem_append_right _ hres.2

theorem remove_local_artifacts_removes_dir {w : World} {cwd : Path}
    {t : String} (hroot : is_project_root w cwd = true) (ht : t ∈ dirTargets)
    (hdir : w.fs.lookup (cwd ++ [t]) = some EntryKind.dir)
    (hfail : cwd ++ [t] ∉ w.failing) :
    (remove_local_artifacts w cwd).1.fs.lookup (cwd ++ [t]) = none ∧
    Msg.removedDir (cwd ++ [t]) ∈ (remove_local_artifacts w cwd).2 := by
  simp only [remove_local_artifacts, hroot, if_true]
  have hmain := removeDirTargets_removes t cwd dirTargets w dirTargets_nodup
    ht hdir hfail
  constructor
  · show (removeFileTargets (removeDirTargets w cwd dirTargets).1 cwd
      fileTargets).1.fs.lookup (cwd ++ [t]) = none
    exact Shrinks.lookup_none
      (shrinks_removeFileTargets (removeDirTargets w cwd dirTargets).1 cwd
        fileTargets) hmain.1
  · show Msg.removedDir (cwd ++ [t]) ∈
      Msg.detectedManualInstall cwd ::
        ((removeDirTargets w cwd dirTargets).2 ++
          (removeFileTargets (removeDirTargets w cwd dirTargets).1 cwd
            fileTargets).2) ++
        [Msg.localArtifactsRemoved, Msg.parentNote cwd]
    exact List.mem_cons_of_mem _
      (List.mem_append_left _ (List.mem_append_left _ hmain.2))

theorem remove_local_artifacts_removes_file {w : World} {cwd : Path}
    {f : String} (hroot : is_project_root w cwd = true)
    (hf : f ∈ fileTargets) (hself : f ≠ selfScript)
    (hfile : w.fs.lookup (cwd ++ [f]) = some EntryKind.file)
    (hfail : cwd ++ [f] ∉ w.failing) :
    (remove_local_artifacts w cwd).1.fs.lookup (cwd ++ [f]) = none ∧
    Msg.removedFile (cwd ++ [f]) ∈ (remove_local_artifacts w cwd).2 := by
  simp only [remove_local_artifacts, hroot, if_true]
  have hpre : ∀ t ∈ dirTargets, ¬ (cwd ++ [t] : Path) <+: cwd ++ [f] :=
    fun t ht hp =>
      fileTargets_disjoint_dirTargets f hf t ht (append_singleton_inj hp)
  have hlook : (removeDirTargets w cwd dirTargets).1.fs.lookup (cwd ++ [f]) =
      w.fs.lookup (cwd ++ [f]) := removeDirTargets_frame hpre w
  have hfail' : cwd ++ [f] ∉ (removeDirTargets w cwd dirTargets).1.failing := by
    rw [(shrinks_removeDirTargets w cwd dirTargets).2.1]
    exact hfail
  have hmain := removeFileTargets_removes f cwd fileTargets
    (removeDirTargets w cwd dirTargets).1 fileTargets_nodup hf hself
    (by rw [hlook]; exact hfile) hfail'
  constructor
  · show (removeFileTargets (removeDirTargets w cwd dirTargets).1 cwd
      fileTargets).1.fs.lookup (cwd ++ [f]) = none
    exact hmain.1
  · show Msg.removedFile (cwd ++ [f]) ∈
      Msg.detectedManualInstall cwd ::
        ((removeDirTargets w cwd dirTargets).2 ++
          (removeFileTargets (removeDirTargets w cwd dirTargets).1 cwd
            fileTargets).2) ++
        [Msg.localArtifactsRemoved, Msg.parentNote cwd]
    exact List.mem_cons_of_mem _
      (List.mem_append_left _ (List.mem_append_right _ hmain.2))

/-! ### Behaviour of the symlink cleaner -/

theorem removeCanonicalSymlink_frame {w : World} {q : Path}
    (h : q ≠ symlinkPath) :
    (removeCanonicalSymlink w).1.fs.lookup q = w.fs.lookup q := by
  unfold removeCanonicalSymlink
  by_cases hc : (w.fs.pathExists symlinkPath || w.fs.isSymlink symlinkPath) = true
  · rw [if_pos hc]
    by_cases hf : osRemoveFails w symlinkPath = true
    · rw [if_pos hf]
    · rw [if_neg hf]
      show (w.fs.removeEntry symlinkPath).lookup q = w.fs.lookup q
      rw [FS.lookup_removeEntry, if_neg h]
  · rw [if_neg hc]

theorem removeOldSymlink_frame {w : World} {q : Path}
    (h : q ≠ oldSymlinkPath) :
    (removeOldSymlink w).1.fs.lookup q = w.fs.lookup q := by
  unfold removeOldSymlink
  by_cases hc : (w.fs.pathExists oldSymlinkPath || w.fs.isSymlink oldSymlinkPath) = true
  · rw [if_pos hc]
    by_cases hf : osRemoveFails w oldSymlinkPath = true
    · rw [if_pos hf]
    · rw [if_neg hf]
      show (w.fs.removeEntry oldSymlinkPath).lookup q = w.fs.lookup q
      rw [FS.lookup_removeEntry, if_neg h]
  · rw [if_neg hc]

theorem remove_symlinks_frame {w : World} {q : Path}
    (h1 : q ≠ symlinkPath) (h2 : q ≠ oldSymlinkPath) :
    (remove_symlinks w).1.fs.lookup q = w.fs.lookup q := by
  show (removeOldSymlink (removeCanonicalSymlink w).1).1.fs.lookup q =
    w.fs.lookup q
  rw [removeOldSymlink_frame h2, removeCanonicalSymlink_frame h1]

theorem remove_symlinks_canonical_fail {w : World}
    (hvis : (w.fs.pathExists symlinkPath || w.fs.isSymlink symlinkPath) = true)
    (hfail : osRemoveFails w symlinkPath = true) :
    Msg.failedSymlink symlinkPath ∈ (remove_symlinks w).2 := by
  show Msg.failedSymlink symlinkPath ∈
    (removeCanonicalSymlink w).2 ++ (removeOldSymlink (removeCanonicalSymlink w).1).2
  apply List.mem_append_left
  unfold removeCanonicalSymlink
  rw [if_pos hvis, if_pos hfail]
  exact List.mem_cons_self _ _

theorem remove_symlinks_canonical_success {w : World}
    (hvis : (w.fs.pathExists symlinkPath || w.fs.isSymlink symlinkPath) = true)
    (hok : osRemoveFails w symlinkPath = false) :
    (remove_symlinks w).1.fs.lookup symlinkPath = none ∧
    Msg.removedSymlink symlinkPath ∈ (remove_symlinks w).2 := by
  have hstep : removeCanonicalSymlink w =
      ({ w with fs := w.fs.removeEntry symlinkPath },
       [Msg.removedSymlink symlinkPath]) := by
    unfold removeCanonicalSymlink
    rw [if_pos hvis, if_neg (by simp [hok])]
  constructor
  · show (removeOldSymlink (removeCanonicalSymlink w).1).1.fs.lookup
      symlinkPath = none
    apply Shrinks.lookup_none
      (shrinks_removeOldSymlink (removeCanonicalSymlink w).1)
    rw [hstep]
    exact FS.lookup_removeEntry_self w.fs symlinkPath
  · show Msg.removedSymlink symlinkPath ∈
      (removeCanonicalSymlink w).2 ++
        (removeOldSymlink (removeCanonicalSymlink w).1).2
    apply List.mem_append_left
    rw [hstep]
    exact List.mem_cons_self _ _

theorem remove_symlinks_old_success {w : World}
    (hvis : (w.fs.pathExists oldSymlinkPath || w.fs.isSymlink oldSymlinkPath) = true)
    (hok : osRemoveFails w oldSymlinkPath = false) :
    (remove_symlinks w).1.fs.lookup oldSymlinkPath = none ∧
    Msg.removedOldSymlink oldSymlinkPath ∈ (remove_symlinks w).2 := by
  have hl : (removeCanonicalSymlink w).1.fs.lookup oldSymlinkPath =
      w.fs.lookup oldSymlinkPath :=
    removeCanonicalSymlink_frame (by decide)
  have hvis1 : ((removeCanonicalSymlink w).1.fs.pathExists oldSymlinkPath ||
      (removeCanonicalSymlink w).1.fs.isSymlink oldSymlinkPath) = true := by
    rw [FS.pathExists_congr hl, FS.isSymlink_congr hl]
    exact hvis
  have hok1 : osRemoveFails (removeCanonicalSymlink w).1 oldSymlinkPath = false := by
    rw [osRemoveFails_congr hl (shrinks_removeCanonicalSymlink w).2.1]
    exact hok
  have hstep : removeOldSymlink (removeCanonicalSymlink w).1 =
      ({ (removeCanonicalSymlink w).1 with
          fs := (removeCanonicalSymlink w).1.fs.removeEntry oldSymlinkPath },
       [Msg.removedOldSymlink oldSymlinkPath]) := by
    unfold removeOldSymlink
    rw [if_pos hvis1, if_neg (by simp [hok1])]
  constructor
  · show (removeOldSymlink (removeCanonicalSymlink w).1).1.fs.lookup
      oldSymlinkPath = none
    rw [hstep]
    exact FS.lookup_removeEntry_self (removeCanonicalSymlink w).1.fs
      oldSymlinkPath
  · show Msg.removedOldSymlink oldSymlinkPath ∈
      (removeCanonicalSymlink w).2 ++
        (removeOldSymlink (removeCanonicalSymlink w).1).2
    apply List.mem_append_right
    rw [hstep]
    exact List.mem_cons_self _ _

theorem removeCanonicalSymlink_msgs (w : World) :
    ∀ m ∈ (removeCanonicalSymlink w).2,
      m = Msg.removedSymlink symlinkPath ∨ m = Msg.failedSymlink symlinkPath := by
  unfold removeCanonicalSymlink
  by_cases hc : (w.fs.pathExists symlinkPath || w.fs.isSymlink symlinkPath) = true
  · rw [if_pos hc]
    by_cases hf : osRemoveFails w symlinkPath = true
    · rw [if_pos hf]
      intro m hm
      right
      simpa using hm
    · rw [if_neg hf]
      intro m hm
      left
      simpa using hm
  · rw [if_neg hc]
    intro m hm
    cases hm

theorem removeOldSymlink_msgs (w : World) :
    ∀ m ∈ (removeOldSymlink w).2, m = Msg.removedOldSymlink oldSymlinkPath := by
  unfold removeOldSymlink
  by_cases hc : (w.fs.pathExists oldSymlinkPath || w.fs.isSymlink oldSymlinkPath) = true
  · rw [if_pos hc]
    by_cases hf : osRemoveFails w oldSymlinkPath = true
    · rw [if_pos hf]
      intro m hm
      cases hm
    · rw [if_neg hf]
      intro m hm
      simpa using hm
  · rw [if_neg hc]
    intro m hm
    cases hm

theorem remove_symlinks_msgs (w : World) :
    ∀ m ∈ (remove_symlinks w).2,
      m = Msg.removedSymlink symlinkPath ∨ m = Msg.failedSymlink symlinkPath ∨
      m = Msg.removedOldSymlink oldSymlinkPath := by
  intro m hm
  have hm' : m ∈ (removeCanonicalSymlink w).2 ++
      (removeOldSymlink (removeCanonicalSymlink w).1).2 := hm
  rcases List.mem_append.mp hm' with h | h
  · rcases removeCanonicalSymlink_msgs w m h with h1 | h1
    · exact Or.inl h1
    · exact Or.inr (Or.inl h1)
  · exact Or.inr (Or.inr (removeOldSymlink_msgs _ m h))

/-! ### The orchestrator's three entry branches -/

theorem main_yes (w : World) (cwd : Path) (answer : String) :
    main w cwd true answer =
      ((main_steps w cwd true).1, Msg.banner :: (main_steps w cwd true).2, 0) :=
  rfl

theorem main_confirmed {answer : String}
    (ha : confirmAffirmative answer = true) (w : World) (cwd : Path) :
    main w cwd false answer =
      ((main_steps w cwd false).1,
        Msg.banner :: Msg.dangerWarning :: (main_steps w cwd false).2, 0) := by
  simp [main, ha]

theorem main_cancelled_eq {answer : String}
    (hc : confirmAffirmative answer = false) (w : World) (cwd : Path) :
    main w cwd false answer =
      (w, [Msg.banner, Msg.dangerWarning, Msg.cancelled], 0) := by
  simp [main, hc]

theorem complete_mem_main_steps (w : World) (cwd : Path) (yes : Bool) :
    Msg.complete ∈ (main_steps w cwd yes).2 := by
  simp only [main_steps]
  simp

/-! ### Claim theorems -/

/-- Claim C1: whenever ProjectCleaner (`remove_local_artifacts`) runs with a
marker file present, the uninstaller's own script file
`sentinelx_uninstall.py` in the working directory is never deleted — its
filesystem entry is unchanged — even when every other listed file exists and
is removed. -/
theorem uninstaller_self_never_deleted (w : World) (cwd : Path)
    (hroot : is_project_root w cwd = true) :
    (remove_local_artifacts w cwd).1.fs.lookup (cwd ++ [selfScript]) =
      w.fs.lookup (cwd ++ [selfScript]) := by
  clear hroot
  apply remove_local_artifacts_frame
  · intro t ht hp
    exact dirTargets_ne_selfScript t ht (append_singleton_inj hp)
  · intro f hf hself hq
    exact hself (append_singleton_eq hq).symm

/-- Witness for C1: in the concrete checkout `exWorld` (marker present, all
other artifacts present), the uninstaller script entry is untouched. -/
theorem uninstaller_self_never_deleted_witness :
    is_project_root exWorld ["proj"] = true ∧
    (remove_local_artifacts exWorld ["proj"]).1.fs.lookup
      (["proj"] ++ [selfScript]) =
      exWorld.fs.lookup (["proj"] ++ [selfScript]) :=
  ⟨by decide, uninstaller_self_never_deleted exWorld ["proj"] (by decide)⟩

/-- Claim C2: when neither marker file (`setup.py`,
`sentinelx/config/tools.yaml`) exists in the working directory,
ProjectCleaner prints the skip notice and removes nothing — the whole world
is returned unchanged — regardless of which other directories exist. -/
theorem no_marker_skips_removal (w : World) (cwd : Path)
    (h1 : w.fs.pathExists (cwd ++ ["setup.py"]) = false)
    (h2 : w.fs.pathExists (cwd ++ ["sentinelx", "config", "tools.yaml"]) = false) :
    remove_local_artifacts w cwd = (w, [Msg.notProjectRoot]) := by
  apply remove_local_artifacts_not_root
  simp [is_project_root, markers, h1, h2]

/-- Witness for C2: a directory with `logs`, `build`, `dist`, `__pycache__`
but no marker is left entirely alone. -/
theorem no_marker_skips_removal_witness :
    exNoMarker.fs.pathExists (["proj"] ++ ["setup.py"]) = false ∧
    exNoMarker.fs.pathExists
      (["proj"] ++ ["sentinelx", "config", "tools.yaml"]) = false ∧
    remove_local_artifacts exNoMarker ["proj"] =
      (exNoMarker, [Msg.notProjectRoot]) :=
  ⟨by decide, by decide,
   no_marker_skips_removal exNoMarker ["proj"] (by decide) (by decide)⟩

/-- Claim C3: for a path that does not exist or is not a directory,
FileRemover (`remove_directory`) returns `false`, prints nothing (no
exception escapes: the function is total), leaves the world unchanged, and
a repeated call gives the identical result. -/
theorem remove_directory_missing_noop (w : World) (p : Path)
    (h : w.fs.pathExists p = false ∨ w.fs.isDir p = false) :
    remove_directory w p = (w, [], false) ∧
    remove_directory (remove_directory w p).1 p = (w, [], false) := by
  have hc : (w.fs.pathExists p && w.fs.isDir p) = false := by
    rcases h with h | h <;> simp [h]
  have h1 : remove_directory w p = (w, [], false) := by
    unfold remove_directory
    rw [hc]
    rfl
  exact ⟨h1, by rw [h1]; exact h1⟩

/-- Witness for C3: removing a non-existent path from the empty filesystem
is a reported no-op, twice. -/
theorem remove_directory_missing_noop_witness :
    (exEmpty.fs.pathExists ["nowhere"] = false ∨
      exEmpty.fs.isDir ["nowhere"] = false) ∧
    remove_directory exEmpty ["nowhere"] = (exEmpty, [], false) ∧
    remove_directory (remove_directory exEmpty ["nowhere"]).1 ["nowhere"] =
      (exEmpty, [], false) :=
  ⟨Or.inl (by decide),
   (remove_directory_missing_noop exEmpty ["nowhere"] (Or.inl (by decide))).1,
   (remove_directory_missing_noop exEmpty ["nowhere"] (Or.inl (by decide))).2⟩

/-- Claim C4: once confirmation is granted or bypassed, the orchestrator
(`main`) runs PackageDetector, SymlinkCleaner, ConfigCleaner, ProjectCleaner
in that fixed order unconditionally (the final state is exactly their
composition, whatever each returns), prints the completion banner, and
exits with status 0 — for every world, including ones where every
sub-cleaner fails. -/
theorem orchestrator_fixed_order_completes (w : World) (cwd : Path)
    (yes : Bool) (answer : String)
    (h : yes = true ∨ confirmAffirmative answer = true) :
    (main w cwd yes answer).1 =
      (remove_local_artifacts (remove_user_config (remove_symlinks
        (uninstall_pip_package w yes).1).1).1 cwd).1 ∧
    Msg.complete ∈ (main w cwd yes answer).2.1 ∧
    (main w cwd yes answer).2.2 = 0 := by
  cases yes with
  | true =>
    simp only [main_yes]
    refine ⟨main_steps_fst w cwd true, ?_, trivial⟩
    exact List.mem_cons_of_mem _ (complete_mem_main_steps w cwd true)
  | false =>
    rcases h with h | ha
    · cases h
    · simp only [main_confirmed ha]
      refine ⟨main_steps_fst w cwd false, ?_, trivial⟩
      exact List.mem_cons_of_mem _
        (List.mem_cons_of_mem _ (complete_mem_main_steps w cwd false))

/-- Witness for C4: in `exFail` every removal raises and the pip uninstall
fails, yet the run completes with the final banner and exit status 0. -/
theorem orchestrator_fixed_order_completes_witness :
    Msg.complete ∈ (main exFail ["proj"] true "").2.1 ∧
    (main exFail ["proj"] true "").2.2 = 0 :=
  ⟨(orchestrator_fixed_order_completes exFail ["proj"] true "" (Or.inl rfl)).2.1,
   (orchestrator_fixed_order_completes exFail ["proj"] true "" (Or.inl rfl)).2.2⟩

/-- Claim C5: without the `-y` flag, a non-affirmative answer to the prompt
prints the cancellation notice and exits with status 0, with no filesystem
mutation of any kind: the returned world is the input world. -/
theorem cancellation_exits_zero_no_mutation (w : World) (cwd : Path)
    (answer : String) (h : confirmAffirmative answer = false) :
    main w cwd false answer =
      (w, [Msg.banner, Msg.dangerWarning, Msg.cancelled], 0) :=
  main_cancelled_eq h w cwd

/-- Witness for C5: answering `n` cancels with exit status 0 and leaves the
concrete world untouched. -/
theorem cancellation_exits_zero_no_mutation_witness :
    confirmAffirmative "n" = false ∧
    main exWorld ["proj"] false "n" =
      (exWorld, [Msg.banner, Msg.dangerWarning, Msg.cancelled], 0) :=
  ⟨by decide,
   cancellation_exits_zero_no_mutation exWorld ["proj"] "n" (by decide)⟩

/-- Claim C6: with a marker present, ProjectCleaner removes exactly its
listed targets that exist — an existing directory target (removal
succeeding) is deleted with a removal notice, an existing listed file other
than the uninstaller itself likewise — and every entry of the working
directory whose name is in neither fixed list (such as `unrelated_data`) is
left untouched. -/
theorem project_cleaner_removes_targets_only (w : World) (cwd : Path)
    (hroot : is_project_root w cwd = true) :
    (∀ t ∈ dirTargets, w.fs.lookup (cwd ++ [t]) = some EntryKind.dir →
      cwd ++ [t] ∉ w.failing →
      (remove_local_artifacts w cwd).1.fs.lookup (cwd ++ [t]) = none ∧
      Msg.removedDir (cwd ++ [t]) ∈ (remove_local_artifacts w cwd).2) ∧
    (∀ f ∈ fileTargets, f ≠ selfScript →
      w.fs.lookup (cwd ++ [f]) = some EntryKind.file →
      cwd ++ [f] ∉ w.failing →
      (remove_local_artifacts w cwd).1.fs.lookup (cwd ++ [f]) = none ∧
      Msg.removedFile (cwd ++ [f]) ∈ (remove_local_artifacts w cwd).2) ∧
    (∀ name : String, name ∉ dirTargets → name ∉ fileTargets →
      (remove_local_artifacts w cwd).1.fs.lookup (cwd ++ [name]) =
        w.fs.lookup (cwd ++ [name])) :=
  ⟨fun _ ht hdir hfail =>
      remove_local_artifacts_removes_dir hroot ht hdir hfail,
   fun _ hf hself hfile hfail =>
      remove_local_artifacts_removes_file hroot hf hself hfile hfail,
   fun _ hnd hnf =>
      remove_local_artifacts_frame
        (fun t ht hp => hnd ((append_singleton_inj hp) ▸ ht))
        (fun f hf _ hq => hnf (by rw [append_singleton_eq hq]; exact hf))⟩

/-- Witness for C6: in the concrete checkout, `logs` is removed with its
removal notice while `unrelated_data` keeps its entry. -/
theorem project_cleaner_removes_targets_only_witness :
    is_project_root exWorld ["proj"] = true ∧
    ((remove_local_artifacts exWorld ["proj"]).1.fs.lookup
        (["proj"] ++ ["logs"]) = none ∧
      Msg.removedDir (["proj"] ++ ["logs"]) ∈
        (remove_local_artifacts exWorld ["proj"]).2) ∧
    (remove_local_artifacts exWorld ["proj"]).1.fs.lookup
        (["proj"] ++ ["unrelated_data"]) =
      exWorld.fs.lookup (["proj"] ++ ["unrelated_data"]) :=
  ⟨by decide,
   (project_cleaner_removes_targets_only exWorld ["proj"] (by decide)).1
     "logs" (by decide) (by decide) (by decide),
   (project_cleaner_removes_targets_only exWorld ["proj"] (by decide)).2.2
     "unrelated_data" (by decide) (by decide)⟩

/-- Claim C7: PackageDetector (`uninstall_pip_package`) returns `false`
silently when the `pip show` query cannot be invoked or exits nonzero; when
the package is found and the uninstall succeeds it returns `true` (with the
detection and success notices), and the uninstall command carries the
non-interactive `-y` flag exactly when `force` is set.  The function is
total: no exception propagates. -/
theorem pip_detector_silent_absence (w : World) (force : Bool) :
    (w.pipOk = false → uninstall_pip_package w force = (w, [], false)) ∧
    (w.pipOk = true → w.pipInstalled = false →
      uninstall_pip_package w force = (w, [], false)) ∧
    (w.pipOk = true → w.pipInstalled = true → w.pipUninstallOk = true →
      uninstall_pip_package w force =
        ({ w with pipInstalled := false },
         [Msg.detectedPip, Msg.pipUninstalled], true)) ∧
    ("-y" ∈ pipUninstallCmd force ↔ force = true) := by
  refine ⟨?_, ?_, ?_, ?_⟩
  · intro h
    unfold uninstall_pip_package
    rw [if_neg (by simp [h])]
  · intro h1 h2
    unfold uninstall_pip_package
    rw [if_pos h1, if_neg (by simp [h2])]
  · intro h1 h2 h3
    unfold uninstall_pip_package
    rw [if_pos h1, if_pos h2, if_pos h3]
  · cases force <;> decide

/-- Witness for C7: with pip available and the package installed, the
uninstall succeeds and returns `true`; the forced command ends in `-y`. -/
theorem pip_detector_silent_absence_witness :
    uninstall_pip_package exWorld true =
      ({ exWorld with pipInstalled := false },
       [Msg.detectedPip, Msg.pipUninstalled], true) ∧
    ("-y" ∈ pipUninstallCmd true ↔ true = true) :=
  ⟨(pip_detector_silent_absence exWorld true).2.2.1 rfl rfl rfl,
   (pip_detector_silent_absence exWorld true).2.2.2⟩

/-- Claim C8: SymlinkCleaner (`remove_symlinks`) touches exactly the two
fixed candidate paths: an existing or dangling canonical symlink is
attempted (success notice on removal, error notice when its removal fails),
an existing or dangling legacy symlink likewise (success notice on
removal), a removal failure on the legacy alias produces no message at all
(the only possible messages are the two success notices and the canonical
error notice), every other path keeps its entry, and the function is total
(never raises). -/
theorem symlink_cleaner_behavior (w : World) :
    ((w.fs.pathExists symlinkPath || w.fs.isSymlink symlinkPath) = true →
      osRemoveFails w symlinkPath = true →
      Msg.failedSymlink symlinkPath ∈ (remove_symlinks w).2) ∧
    ((w.fs.pathExists symlinkPath || w.fs.isSymlink symlinkPath) = true →
      osRemoveFails w symlinkPath = false →
      (remove_symlinks w).1.fs.lookup symlinkPath = none ∧
      Msg.removedSymlink symlinkPath ∈ (remove_symlinks w).2) ∧
    ((w.fs.pathExists oldSymlinkPath || w.fs.isSymlink oldSymlinkPath) = true →
      osRemoveFails w oldSymlinkPath = false →
      (remove_symlinks w).1.fs.lookup oldSymlinkPath = none ∧
      Msg.removedOldSymlink oldSymlinkPath ∈ (remove_symlinks w).2) ∧
    (∀ q : Path, q ≠ symlinkPath → q ≠ oldSymlinkPath →
      (remove_symlinks w).1.fs.lookup q = w.fs.lookup q) ∧
    (∀ m ∈ (remove_symlinks w).2,
      m = Msg.removedSymlink symlinkPath ∨
      m = Msg.failedSymlink symlinkPath ∨
      m = Msg.removedOldSymlink oldSymlinkPath) :=
  ⟨fun hv hf => remove_symlinks_canonical_fail hv hf,
   fun hv hf => remove_symlinks_canonical_success hv hf,
   fun hv hf => remove_symlinks_old_success hv hf,
   fun _ h1 h2 => remove_symlinks_frame h1 h2,
   remove_symlinks_msgs w⟩

/-- Witness for C8: in the concrete world the canonical symlink is dangling
and the legacy one intact; both are removed with their notices, and the
user configuration entry is untouched by the symlink cleaner. -/
theorem symlink_cleaner_behavior_witness :
    ((remove_symlinks exWorld).1.fs.lookup symlinkPath = none ∧
      Msg.removedSymlink symlinkPath ∈ (remove_symlinks exWorld).2) ∧
    ((remove_symlinks exWorld).1.fs.lookup oldSymlinkPath = none ∧
      Msg.removedOldSymlink oldSymlinkPath ∈ (remove_symlinks exWorld).2) ∧
    (remove_symlinks exWorld).1.fs.lookup configPath =
      exWorld.fs.lookup configPath :=
  ⟨(symlink_cleaner_behavior exWorld).2.1 (by decide) (by decide),
   (symlink_cleaner_behavior exWorld).2.2.1 (by decide) (by decide),
   (symlink_cleaner_behavior exWorld).2.2.2.1 configPath (by decide) (by decide)⟩

/-- Claim C9: running the full uninstall (`main`) twice in succession with
the same flag and answer yields the same final state as running it once —
the second run finds every target already absent (or still failing
identically) and performs only no-ops, and being a total function it cannot
crash. -/
theorem uninstall_idempotent (w : World) (cwd : Path) (yes : Bool)
    (answer : String) :
    (main (main w cwd yes answer).1 cwd yes answer).1 =
      (main w cwd yes answer).1 := by
  cases yes with
  | true =>
    simp only [main_yes]
    exact main_steps_fixed w cwd true
  | false =>
    by_cases ha : confirmAffirmative answer = true
    · simp only [main_confirmed ha]
      exact main_steps_fixed w cwd false
    · have hc : confirmAffirmative answer = false := by
        cases h : confirmAffirmative answer
        · rfl
        · exact absurd h ha
      simp only [main_cancelled_eq hc]

/-- Claim C10: `save_report_csv` on an empty record list creates the
reports directory (via `generate_filename`) but writes no file and prints
no confirmation notice, returning without error. -/
theorem save_report_csv_empty_noop (s : ReportState) (timestamp : String) :
    (save_report_csv s timestamp []).reportsDirExists = true ∧
    (save_report_csv s timestamp []).files = s.files ∧
    (save_report_csv s timestamp []).notices = s.notices := by
  by_cases h : s.reportsDirExists <;>
    simp [save_report_csv, generate_filename, h]

end SentinelX
